import Mathlib

/-! Shallow embedding of the PDF processor service (`src/server.py`): the static
rule table (`TRANSLATIONS`, `REMOVE_TEXTS`, `PRICE_PATTERNS`), the per-page
redaction planning and application loop of `PDFProcessor.process`, the run-level
statistics it returns, the `/upload` handler's process-record lifecycle, and the
`/cleanup` pruning sweep.  Page geometry is modelled with integer coordinates, a
page as a list of positioned text runs, and PyMuPDF's `page.search_for` as
substring search over those runs (one bounding box per occurrence).  Wall-clock
timing (`processing_time`) and the filesystem are external effects: the size of
the saved artifact is passed to `process` as a parameter. -/

/-- An axis-aligned rectangle in page coordinates (`fitz.Rect`). -/
structure Rect where
  x0 : Int
  y0 : Int
  x1 : Int
  y1 : Int
deriving DecidableEq

/-- A positioned text run on a page. -/
structure TextItem where
  text : String
  rect : Rect
deriving DecidableEq

/-- A page: its fixed size (`page.rect`) plus its positioned text content. -/
structure Page where
  width : Int
  height : Int
  items : List TextItem
deriving DecidableEq

/-- Whether `needle` matches `hay` starting at its first character. -/
def matchesAt : List Char → List Char → Bool
  | [], _ => true
  | _ :: _, [] => false
  | a :: as, b :: bs => a == b && matchesAt as bs

/-- Number of positions of `hay` at which `needle` occurs. -/
def countOccsAux (needle : List Char) : List Char → Nat
  | [] => 0
  | c :: rest => (if matchesAt needle (c :: rest) then 1 else 0) + countOccsAux needle rest

/-- Occurrences of `needle` inside `hay` (substring semantics used to model
`page.search_for`). -/
def occursCount (needle hay : String) : Nat :=
  countOccsAux needle.data hay.data

/-- Embedding of `page.search_for(needle)` (server.py lines 97, 108, 118): every
bounding box on the page where the text occurs; empty list on zero matches. -/
def searchFor (page : Page) (needle : String) : List Rect :=
  page.items.flatMap (fun it => List.replicate (occursCount needle it.text) it.rect)

/-- The translation dictionary `TRANSLATIONS` (server.py lines 35-58), as the
list of (source phrase, target phrase) pairs in source (= iteration) order. -/
def TRANSLATIONS : List (String × String) := [
  ("Klamka okienna", "Maniglia finestra"),
  ("Biała", "Bianca"),
  ("Próg aluminiowy ciepły", "Soglia in alluminio a taglio termico"),
  ("Próg aluminiowy", "Soglia in alluminio"),
  ("czynne", "attiva"),
  ("bierne", "passiva"),
  ("stała", "fissa"),
  ("mikro", "micro"),
  ("NISKI PRÓG ALUM W BALKONIE", "SOGLIA BASSA IN ALLUMINIO NEL BALCONE"),
  ("Inny typ w zestawie", "Altro tipo nel set"),
  ("Kod ramy", "Codice telaio"),
  ("Kod skrzydła", "Codice anta"),
  ("Powierzchnia", "Superficie"),
  ("Obwód", "Perimetro"),
  ("Vista da interno", "Vista interna"),
  ("quantita", "quantità"),
  ("Unita\x27 di produzione", "Unità di produzione"),
  ("Sommario", "Riepilogo"),
  ("Prodotto standard", "Prodotto standard"),
  ("In totale", "Totale"),
  ("Totale peso", "Peso totale"),
  ("Totale quantita\x27 di telai", "Quantità totale telai")]

/-- The literal-removal list `REMOVE_TEXTS` (server.py line 60). -/
def REMOVE_TEXTS : List String :=
  ["Offerta n.", "Rif:", "Per:", "Offerta del giorno:", "PLN"]

/-- The pattern-matcher list `PRICE_PATTERNS` (server.py lines 62-66): the raw
regular-expression strings of the rule table. -/
def PRICE_PATTERNS : List String :=
  ["\\b\\d\x7b1,3\x7d([ .]\\d\x7b3\x7d)*(,\\d\x7b2\x7d)?\\b", "\\bPLN\\b", "\\b\\d+%\\b"]

/-- The four boolean toggles read from the config dict via
`self.config.get(..., True)`. -/
structure Config where
  translate : Bool
  remove_prices : Bool
  remove_header : Bool
  remove_ref : Bool
deriving DecidableEq

/-- The statistics dict built by `PDFProcessor.process`.  `processing_time`
(wall clock) is an external effect and is not modelled. -/
structure RunStats where
  translations : Nat
  prices_removed : Nat
  pages : Nat
  output_size : ℚ

namespace PDFProcessor

/-- The source phrases iterated by the translation stage
(`for pl_text, it_text in TRANSLATIONS.items()`). -/
def translationSources : List String := TRANSLATIONS.map (fun p => p.1)

/-- The hard-coded `price_keywords` list of the price stage (server.py line 106). -/
def priceKeywords : List String :=
  ["Prezzi netto", "Prezzo", "Sconto", "Valore", "IVA", "lordo", "netto"]

/-- The hard-coded literals of the reference stage (server.py line 117). -/
def refTexts : List String := ["Rif:", "RIF:", "Per:"]

/-- Expanded redaction rectangle for one price-keyword match (server.py line 111):
`fitz.Rect(inst.x0 - 10, inst.y0, inst.x1 + 200, inst.y1 + 20)`. -/
def expandPriceRect (inst : Rect) : Rect :=
  ⟨inst.x0 - 10, inst.y0, inst.x1 + 200, inst.y1 + 20⟩

/-- Expanded redaction rectangle for one reference match (server.py line 120):
`fitz.Rect(inst.x0 - 5, inst.y0, inst.x1 + 150, inst.y1 + 5)`. -/
def expandRefRect (inst : Rect) : Rect :=
  ⟨inst.x0 - 5, inst.y0, inst.x1 + 150, inst.y1 + 5⟩

/-- All located instances of the price stage, in keyword order (server.py
lines 107-109). -/
def priceMatches (page : Page) : List Rect :=
  priceKeywords.flatMap (fun k => searchFor page k)

/-- The regions the price stage emits: the expanded rectangle of every located
instance (server.py lines 109-112). -/
def pricePlanned (page : Page) : List Rect :=
  (priceMatches page).map expandPriceRect

/-- Outcome of planning one page: the redaction regions added via
`page.add_redact_annot`, and the increments this page contributes to the
`translations` and `prices_removed` counters. -/
structure PagePlan where
  regions : List Rect
  transInc : Nat
  priceInc : Nat
deriving DecidableEq

/-- Per-page planning of `PDFProcessor.process` (server.py lines 89-121), in
source stage order: header band, translation terms, price terms, reference
terms.  The translation stage adds a redaction region per located instance but
never touches `stats["translations"]` (lines 96-101), hence `transInc := 0`;
the price stage increments `stats["prices_removed"]` once per instance
(line 113). -/
def planPage (cfg : Config) (page : Page) : PagePlan :=
  let headerRegs : List Rect :=
    if cfg.remove_header then [⟨0, 0, page.width, 100⟩] else []
  let transRegs : List Rect :=
    if cfg.translate then translationSources.flatMap (fun t => searchFor page t) else []
  let priceRegs : List Rect :=
    if cfg.remove_prices then pricePlanned page else []
  let priceCount : Nat :=
    if cfg.remove_prices then (priceMatches page).length else 0
  let refRegs : List Rect :=
    if cfg.remove_ref then refTexts.flatMap (fun t => (searchFor page t).map expandRefRect) else []
  { regions := headerRegs ++ transRegs ++ priceRegs ++ refRegs
  , transInc := 0
  , priceInc := priceCount }

/-- Whether two rectangles overlap (open intersection). -/
def rectsOverlap (a b : Rect) : Bool :=
  decide (a.x0 < b.x1) && decide (b.x0 < a.x1) && decide (a.y0 < b.y1) && decide (b.y0 < a.y1)

/-- Embedding of `page.apply_redactions()` (server.py line 124): content under
any planned region is irreversibly removed. -/
def applyRedactions (page : Page) (regions : List Rect) : Page :=
  { page with items := page.items.filter (fun it => !(regions.any (fun r => rectsOverlap r it.rect))) }

/-- Accumulated outcome of the page loop of `PDFProcessor.process`. -/
structure LoopResult where
  planned : List (List Rect)
  outPages : List Page
  transCount : Nat
  priceCount : Nat
deriving DecidableEq

/-- The page loop of `PDFProcessor.process` (server.py lines 86-127): each page
is planned then has its redactions applied, and the counters accumulate. -/
def runPages (cfg : Config) : List Page → LoopResult
  | [] => ⟨[], [], 0, 0⟩
  | p :: rest =>
    let pl := planPage cfg p
    let r := runPages cfg rest
    ⟨pl.regions :: r.planned, applyRedactions p pl.regions :: r.outPages,
     pl.transInc + r.transCount, pl.priceInc + r.priceCount⟩

/-- Result of one `process` invocation: the returned stats, the regions planned
per page, and the saved document's pages. -/
structure RunResult where
  stats : RunStats
  planned : List (List Rect)
  outputPages : List Page

/-- Embedding of `PDFProcessor.process` (server.py lines 80-138).
`outputBytes` is the filesystem's size of the saved artifact
(`os.path.getsize(self.output_path)`); the code stores that size divided
by 1024 into `stats["output_size"]` (line 136). -/
def process (doc : List Page) (cfg : Config) (outputBytes : Nat) : RunResult :=
  let r := runPages cfg doc
  { stats := { translations := r.transCount
             , prices_removed := r.priceCount
             , pages := doc.length
             , output_size := (outputBytes : ℚ) / 1024 }
  , planned := r.planned
  , outputPages := r.outPages }

/-- All search terms the planner ever passes to `page.search_for`. -/
def searchedTerms : List String :=
  translationSources ++ (priceKeywords ++ refTexts)

/-- Whether no text item of `page` contains any of the given search terms. -/
def pageAvoids (ts : List String) (page : Page) : Bool :=
  page.items.all (fun it => ts.all (fun t => occursCount t it.text == 0))

/-- Sequential searches with a fallible matcher, as in the source's stage loops:
`page.search_for` is called once per term and any raised error propagates
(there is no try/except inside `PDFProcessor.process`). -/
def searchManyE (srch : String → Except String (List Rect)) :
    List String → Except String (List Rect)
  | [] => Except.ok []
  | t :: ts =>
    match srch t with
    | Except.error e => Except.error e
    | Except.ok a =>
      match searchManyE srch ts with
      | Except.error e => Except.error e
      | Except.ok b => Except.ok (a ++ b)

/-- Per-page planning of `PDFProcessor.process` with `page.search_for`
abstracted as a fallible oracle `srch`.  It transcribes the same stage order as
`planPage`; since the source wraps no rule in a try/except, an error raised by
any rule's search aborts the whole page's planning. -/
def planPageE (srch : String → Except String (List Rect)) (cfg : Config)
    (pageWidth : Int) : Except String PagePlan :=
  let headerRegs : List Rect :=
    if cfg.remove_header then [⟨0, 0, pageWidth, 100⟩] else []
  match (if cfg.translate then searchManyE srch translationSources else Except.ok []) with
  | Except.error e => Except.error e
  | Except.ok transRegs =>
    match (if cfg.remove_prices then searchManyE srch priceKeywords else Except.ok []) with
    | Except.error e => Except.error e
    | Except.ok priceMs =>
      match (if cfg.remove_ref then searchManyE srch refTexts else Except.ok []) with
      | Except.error e => Except.error e
      | Except.ok refMs =>
        Except.ok { regions := headerRegs ++ transRegs ++ priceMs.map expandPriceRect
                                 ++ refMs.map expandRefRect
                  , transInc := 0
                  , priceInc := priceMs.length }

end PDFProcessor

/-- The status values a process record can hold.  `pending` and `failed` appear
in the spec's state machine; the code only ever writes `processing` and
`completed`. -/
inductive ProcStatus
  | pending
  | processing
  | completed
  | failed
deriving DecidableEq

/-- Whether a status is terminal (`completed` or `failed`). -/
def isTerminal : ProcStatus → Bool
  | ProcStatus.completed => true
  | ProcStatus.failed => true
  | _ => false

/-- Observable outcome of one `/upload` request: the sequence of status values
assigned to the process record, the record's final stored status, and the HTTP
response (`Except.error` models the raised `HTTPException(500, detail)`). -/
structure UploadOutcome where
  statusHistory : List ProcStatus
  record : Option ProcStatus
  responseStatus : Except String String

/-- Embedding of the `upload_pdf` handler (server.py lines 148-204),
parametrised by the outcome of `processor.process()`.  The record is created
with status `"processing"` (line 173); on success it is updated to
`"completed"` (line 190) and the response body reports `"processing_started"`
(line 199); on failure the `except` branch raises `HTTPException(500, str(e))`
without touching the record. -/
def upload_pdf (procResult : Except String RunStats) : UploadOutcome :=
  let created : List ProcStatus := [ProcStatus.processing]
  match procResult with
  | Except.ok _ =>
    { statusHistory := created ++ [ProcStatus.completed]
    , record := some ProcStatus.completed
    , responseStatus := Except.ok "processing_started" }
  | Except.error e =>
    { statusHistory := created
    , record := some ProcStatus.processing
    , responseStatus := Except.error e }

/-- A naive local datetime, enough to embed `datetime.now()`, `replace` and
field-wise comparison. -/
structure PyDateTime where
  year : Int
  month : Int
  day : Int
  hour : Int
  minute : Int
  second : Int
deriving DecidableEq

/-- Embedding of `datetime.replace(hour=h)`: CPython validates
`0 <= hour <= 23` and raises `ValueError("hour must be in 0..23")` otherwise. -/
def replaceHour (t : PyDateTime) (h : Int) : Except String PyDateTime :=
  if h < 0 ∨ 23 < h then Except.error "hour must be in 0..23"
  else Except.ok { t with hour := h }

/-- Lexicographic `datetime` comparison (`a < b`). -/
def dtLt (a b : PyDateTime) : Bool :=
  if a.year ≠ b.year then decide (a.year < b.year)
  else if a.month ≠ b.month then decide (a.month < b.month)
  else if a.day ≠ b.day then decide (a.day < b.day)
  else if a.hour ≠ b.hour then decide (a.hour < b.hour)
  else if a.minute ≠ b.minute then decide (a.minute < b.minute)
  else decide (a.second < b.second)

/-- The slice of a process record the pruning sweep reads. -/
structure ProcRecord where
  created_at : PyDateTime
deriving DecidableEq

/-- Embedding of the record-pruning comprehension of `cleanup` (server.py
lines 250-252): `{pid: data for pid, data in processes.items() if
datetime.fromisoformat(data["created_at"]) > datetime.now().replace(hour=-1)}`.
The comprehension evaluates its condition once per record, and each evaluation
computes `now.replace(hour=-1)`; a raised error aborts the comprehension. -/
def cleanupPrune (now : PyDateTime) :
    List (String × ProcRecord) → Except String (List (String × ProcRecord))
  | [] => Except.ok []
  | (pid, r) :: rest =>
    match replaceHour now (-1) with
    | Except.error e => Except.error e
    | Except.ok cutoff =>
      match cleanupPrune now rest with
      | Except.error e => Except.error e
      | Except.ok kept =>
        Except.ok (if dtLt cutoff r.created_at then (pid, r) :: kept else kept)

open PDFProcessor

/-- Config with every toggle enabled (the default when no config is supplied). -/
def cfgAll : Config := ⟨true, true, true, true⟩

/-- Config with every toggle disabled. -/
def cfgOff : Config := ⟨false, false, false, false⟩

/-- Config enabling only the translation stage. -/
def cfgTranslateOnly : Config := ⟨true, false, false, false⟩

/-- Config with everything enabled except the header band. -/
def cfgNoHeader : Config := ⟨true, true, false, true⟩

/-- Bounding box of the phrase "Klamka okienna" on the second fixture page. -/
def rKlamka : Rect := ⟨36, 120, 150, 132⟩

/-- Fixture page 1: unrelated text only. -/
def fixPage1 : Page := ⟨595, 842, [⟨"Documento tecnico", ⟨40, 60, 200, 72⟩⟩]⟩

/-- Fixture page 2: contains the literal source phrase "Klamka okienna" once. -/
def fixPage2 : Page := ⟨595, 842, [⟨"Klamka okienna", rKlamka⟩]⟩

/-- Fixture page 3: unrelated text only. -/
def fixPage3 : Page := ⟨595, 842, [⟨"Grazie", ⟨40, 700, 90, 712⟩⟩]⟩

/-- A 3-page fixture document where only page 2 contains a translation source. -/
def doc3 : List Page := [fixPage1, fixPage2, fixPage3]

/-- Fixture page whose only text is the literal "PLN": it is one of the
`REMOVE_TEXTS` literals and matches the `PRICE_PATTERNS` regex `\bPLN\b`, but
none of the terms the planner actually searches. -/
def pagePLN : Page := ⟨600, 850, [⟨"PLN", ⟨300, 400, 330, 412⟩⟩]⟩

/-- A search oracle that raises on the single rule "Sconto" and has a real
match for the later rule "IVA". -/
def srchBad : String → Except String (List Rect) :=
  fun t =>
    if t = "Sconto" then Except.error "boom"
    else if t = "IVA" then Except.ok [⟨100, 200, 130, 212⟩]
    else Except.ok []

/-- A search oracle that raises on every term. -/
def srchBoom : String → Except String (List Rect) := fun _ => Except.error "boom"

/-- A located region for the price keyword "Prezzo", shared by two fixture pages. -/
def rPrezzo : Rect := ⟨100, 300, 140, 312⟩

/-- Fixture page A containing the price keyword "Prezzo" at `rPrezzo`. -/
def pgPrezzoA : Page := ⟨595, 842, [⟨"Prezzo", rPrezzo⟩]⟩

/-- Fixture page B also containing "Prezzo" at `rPrezzo`, among other text. -/
def pgPrezzoB : Page := ⟨595, 842, [⟨"Totale Prezzo", rPrezzo⟩, ⟨"vetro", ⟨0, 0, 30, 12⟩⟩]⟩

/-- A fixture wall-clock instant. -/
def dt0 : PyDateTime := ⟨2026, 10, 12, 9, 30, 0⟩

/-- A fixture process record. -/
def rec0 : ProcRecord := ⟨⟨2026, 10, 12, 9, 0, 0⟩⟩

lemma flatMap_nil_of_all {α β : Type} (f : α → List β) :
    ∀ l : List α, (∀ a ∈ l, f a = []) → l.flatMap f = [] := by
  intro l
  induction l with
  | nil => intro _; rfl
  | cons a tl ih =>
    intro h
    have ha : f a = [] := h a (List.mem_cons_self a tl)
    have htl : ∀ x ∈ tl, f x = [] := fun x hx => h x (List.mem_cons_of_mem a hx)
    simp [List.flatMap_cons, ha, ih htl]

lemma searchFor_nil (page : Page) (t : String)
    (h : ∀ it ∈ page.items, occursCount t it.text = 0) :
    searchFor page t = [] := by
  unfold searchFor
  exact flatMap_nil_of_all _ page.items (fun it hit => by rw [h it hit]; rfl)

lemma applyRedactions_nil (page : Page) : applyRedactions page [] = page := by
  cases page with
  | mk w h items => simp [applyRedactions]

lemma planPage_off (cfg : Config) (page : Page) (ht : cfg.translate = false)
    (hp : cfg.remove_prices = false) (hh : cfg.remove_header = false)
    (hr : cfg.remove_ref = false) : planPage cfg page = ⟨[], 0, 0⟩ := by
  simp [planPage, ht, hp, hh, hr]

lemma runPages_off (cfg : Config) (ht : cfg.translate = false)
    (hp : cfg.remove_prices = false) (hh : cfg.remove_header = false)
    (hr : cfg.remove_ref = false) :
    ∀ doc : List Page, runPages cfg doc = ⟨doc.map (fun _ => []), doc, 0, 0⟩ := by
  intro doc
  induction doc with
  | nil => rfl
  | cons p rest ih =>
    simp [runPages, planPage_off cfg p ht hp hh hr, ih, applyRedactions_nil]

/-- C1: in the 3-page translate-only scenario where page 2 contains the literal
source phrase "Klamka okienna" exactly once, the run does plan a redaction
region exactly at that occurrence's bounding box (and none on the other pages),
and returns pages = 3 and prices_removed = 0 — but the returned translations
counter is 0, not 1: `PDFProcessor.process` never increments
`stats["translations"]`. -/
theorem translate_counter_never_incremented :
    (process doc3 cfgTranslateOnly 4096).stats.translations = 0 ∧
    (process doc3 cfgTranslateOnly 4096).stats.pages = 3 ∧
    (process doc3 cfgTranslateOnly 4096).stats.prices_removed = 0 ∧
    (process doc3 cfgTranslateOnly 4096).planned = [[], [rKlamka], []] :=
  ⟨rfl, rfl, rfl, rfl⟩

/-- C2 counterexample: with every stage enabled and a matcher that raises only
on the single rule "Sconto" while the later rule "IVA" has a real match, the
page's planning is aborted with that error — the remaining rules' contributions
are lost instead of only the bad rule being skipped. -/
theorem stage_error_not_rule_local_cex :
    planPageE srchBad cfgAll 595 = Except.error "boom" ∧
    srchBad "IVA" = Except.ok [⟨100, 200, 130, 212⟩] :=
  ⟨rfl, rfl⟩

/-- C2 amended: a matcher error is not caught at rule granularity: the source
wraps no rule in a try/except, so when the translation stage is enabled and the
matcher raises on the first translation rule, the whole page's planning returns
that error and no plan or counts are produced for the page. -/
theorem stage_error_aborts_page :
    ∀ (srch : String → Except String (List Rect)) (cfg : Config) (w : Int) (e : String),
      cfg.translate = true → srch "Klamka okienna" = Except.error e →
      planPageE srch cfg w = Except.error e := by
  intro srch cfg w e ht hs
  simp [planPageE, ht, translationSources, TRANSLATIONS, searchManyE, hs]

/-- C2 amended, witness: a matcher raising on every term makes the planning of
a page with the all-enabled config return the error. -/
theorem stage_error_aborts_page_witness :
    planPageE srchBoom cfgAll 595 = Except.error "boom" :=
  stage_error_aborts_page srchBoom cfgAll 595 "boom" rfl rfl

/-- C3 counterexample: "PLN" is one of the Rule Table's literal removal strings
(and matches its pattern `\bPLN\b`), yet a page whose text is exactly "PLN",
processed with translate, prices and references enabled (header off), gets no
planned region at all and no counter increment: `REMOVE_TEXTS` and
`PRICE_PATTERNS` are never consulted by the planner. -/
theorem rule_table_unused_cex :
    "PLN" ∈ REMOVE_TEXTS ∧
    (planPage cfgNoHeader pagePLN).regions = [] ∧
    (planPage cfgNoHeader pagePLN).priceInc = 0 ∧
    (planPage cfgNoHeader pagePLN).transInc = 0 := by
  refine ⟨by decide, rfl, rfl, rfl⟩

/-- C3 amended: the planner searches pages only for the translation source
phrases, the hard-coded price keywords and the hard-coded reference literals;
a page containing none of those terms gets no region beyond the unconditional
header band and a zero price count, regardless of whether its text matches
`REMOVE_TEXTS` or `PRICE_PATTERNS`. -/
theorem planning_uses_hardcoded_terms :
    ∀ (page : Page) (cfg : Config),
      pageAvoids searchedTerms page = true →
      (planPage cfg page).regions =
        (if cfg.remove_header then [⟨0, 0, page.width, 100⟩] else ([] : List Rect)) ∧
      (planPage cfg page).priceInc = 0 := by
  intro page cfg h
  simp only [pageAvoids, List.all_eq_true, beq_iff_eq] at h
  have hterm : ∀ t ∈ searchedTerms, searchFor page t = [] := by
    intro t ht
    exact searchFor_nil page t (fun it hit => h it hit t ht)
  have hmem : ∀ t : String,
      (t ∈ translationSources ∨ t ∈ priceKeywords ∨ t ∈ refTexts) → t ∈ searchedTerms := by
    intro t ht
    simp only [searchedTerms, List.mem_append]
    tauto
  have htrans : translationSources.flatMap (fun t => searchFor page t) = [] :=
    flatMap_nil_of_all _ _ (fun t ht => hterm t (hmem t (Or.inl ht)))
  have hpm : priceMatches page = [] :=
    flatMap_nil_of_all _ _ (fun t ht => hterm t (hmem t (Or.inr (Or.inl ht))))
  have href : refTexts.flatMap (fun t => (searchFor page t).map expandRefRect) = [] :=
    flatMap_nil_of_all _ _ (fun t ht => by
      rw [hterm t (hmem t (Or.inr (Or.inr ht)))]
      rfl)
  constructor
  · simp [planPage, htrans, pricePlanned, hpm, href]
  · simp [planPage, hpm]

/-- C3 amended, witness: the "PLN" page with header disabled satisfies the
avoidance hypothesis and indeed gets no region and a zero price count. -/
theorem planning_uses_hardcoded_terms_witness :
    (planPage cfgNoHeader pagePLN).regions =
      (if cfgNoHeader.remove_header then [⟨0, 0, pagePLN.width, 100⟩] else ([] : List Rect)) ∧
    (planPage cfgNoHeader pagePLN).priceInc = 0 :=
  planning_uses_hardcoded_terms pagePLN cfgNoHeader (by decide)

/-- C4 counterexample: when `processor.process()` raises, the `/upload` handler
leaves the process record with status "processing" — a non-terminal status —
so the run's failure never becomes a terminal record state. -/
theorem failed_run_nonterminal_cex :
    (upload_pdf (Except.error "cannot open PDF")).record = some ProcStatus.processing ∧
    isTerminal ProcStatus.processing = false :=
  ⟨rfl, rfl⟩

/-- C4 amended: for every failing run, the failure is surfaced only through the
HTTP 500 error response; the process record is never transitioned to a terminal
state and remains permanently in the non-terminal status "processing". -/
theorem failed_run_record_stays_processing :
    ∀ e : String,
      (upload_pdf (Except.error e)).record = some ProcStatus.processing ∧
      (upload_pdf (Except.error e)).responseStatus = Except.error e ∧
      isTerminal ProcStatus.processing = false :=
  fun _ => ⟨rfl, rfl, rfl⟩

/-- C5 counterexample: for a saved artifact of 2048 bytes, the returned
`output_size` is 2048/1024 = 2, not the size in bytes. -/
theorem output_size_not_bytes_cex :
    (process ([] : List Page) cfgAll 2048).stats.output_size ≠ ((2048 : Nat) : ℚ) := by
  show ((2048 : Nat) : ℚ) / 1024 ≠ ((2048 : Nat) : ℚ)
  norm_num

/-- C5 amended: on completion the returned `output_size` equals the saved
artifact's size in bytes divided by 1024 (i.e. kilobytes). -/
theorem output_size_is_kilobytes :
    ∀ (doc : List Page) (cfg : Config) (n : Nat),
      (process doc cfg n).stats.output_size = (n : ℚ) / 1024 :=
  fun _ _ _ => rfl

/-- C6: with all four toggles false, a run plans zero redaction regions on
every page, returns translations = 0, prices_removed = 0 and pages equal to the
document's page count, and the saved pages are identical to the input pages
(no content removed). -/
theorem all_toggles_off_noop :
    ∀ (cfg : Config) (doc : List Page) (n : Nat),
      cfg.translate = false → cfg.remove_prices = false →
      cfg.remove_header = false → cfg.remove_ref = false →
      (process doc cfg n).stats.translations = 0 ∧
      (process doc cfg n).stats.prices_removed = 0 ∧
      (process doc cfg n).stats.pages = doc.length ∧
      (process doc cfg n).planned = doc.map (fun _ => ([] : List Rect)) ∧
      (process doc cfg n).outputPages = doc := by
  intro cfg doc n ht hp hh hr
  have h := runPages_off cfg ht hp hh hr doc
  refine ⟨?_, ?_, ?_, ?_, ?_⟩ <;> simp [process, h]

/-- C6 witness: the all-false config on the 3-page fixture document. -/
theorem all_toggles_off_noop_witness :
    (process doc3 cfgOff 0).stats.translations = 0 ∧
    (process doc3 cfgOff 0).stats.prices_removed = 0 ∧
    (process doc3 cfgOff 0).stats.pages = doc3.length ∧
    (process doc3 cfgOff 0).planned = doc3.map (fun _ => ([] : List Rect)) ∧
    (process doc3 cfgOff 0).outputPages = doc3 :=
  all_toggles_off_noop cfgOff doc3 0 rfl rfl rfl rfl

/-- C7: whenever `remove_header` is enabled, the first region planned for any
page — regardless of its text content — is the fixed header band: the rectangle
from the top edge spanning the full page width with height 100 page-units. -/
theorem header_band_unconditional :
    ∀ (cfg : Config) (page : Page), cfg.remove_header = true →
      (planPage cfg page).regions.head? = some ⟨0, 0, page.width, 100⟩ := by
  intro cfg page h
  simp [planPage, h]

/-- C7 witness: the header band is planned first on the "PLN" fixture page
under the all-enabled config. -/
theorem header_band_unconditional_witness :
    (planPage cfgAll pagePLN).regions.head? = some ⟨0, 0, pagePLN.width, 100⟩ :=
  header_band_unconditional cfgAll pagePLN rfl

/-- C8: the expanded redaction rectangle of a price-keyword match is a pure
function of the located region and the fixed margins alone — left by 10, right
by 200, downward by 20 — and any two pages on which the same region is located
emit the identical expanded rectangle into their price-stage plans. -/
theorem price_expansion_deterministic :
    (∀ r : Rect, expandPriceRect r = ⟨r.x0 - 10, r.y0, r.x1 + 200, r.y1 + 20⟩) ∧
    (∀ (p q : Page) (inst : Rect), inst ∈ priceMatches p → inst ∈ priceMatches q →
      expandPriceRect inst ∈ pricePlanned p ∧ expandPriceRect inst ∈ pricePlanned q) :=
  ⟨fun _ => rfl,
   fun _ _ _ hp hq => ⟨List.mem_map_of_mem _ hp, List.mem_map_of_mem _ hq⟩⟩

/-- C8 witness: the region of "Prezzo", located on two different fixture pages,
yields the same expanded rectangle in both pages' price-stage plans. -/
theorem price_expansion_deterministic_witness :
    expandPriceRect rPrezzo ∈ pricePlanned pgPrezzoA ∧
    expandPriceRect rPrezzo ∈ pricePlanned pgPrezzoB :=
  price_expansion_deterministic.2 pgPrezzoA pgPrezzoB rPrezzo (by decide) (by decide)

/-- C9 counterexample: a cleanup sweep over an empty process table never
evaluates the malformed `replace(hour=-1)` expression, so it terminates
successfully rather than in its error branch — the claim's "always" fails. -/
theorem cleanup_empty_table_cex :
    cleanupPrune dt0 [] = Except.ok [] ∧
    cleanupPrune dt0 [] ≠ Except.error "hour must be in 0..23" :=
  ⟨rfl, fun h => Except.noConfusion h⟩

/-- C9 amended: the pruning comprehension computes "one hour ago" via
`datetime.now().replace(hour=-1)`, which raises ValueError (hour must be
in 0..23) as soon as it is evaluated; since it is evaluated once per record,
every sweep over a non-empty table terminates in the error branch, a sweep over
an empty table trivially succeeds, and in either case no record is ever
pruned. -/
theorem cleanup_never_prunes :
    (∀ now : PyDateTime, cleanupPrune now [] = Except.ok []) ∧
    (∀ (now : PyDateTime) (pid : String) (r : ProcRecord)
      (rest : List (String × ProcRecord)),
      cleanupPrune now ((pid, r) :: rest) = Except.error "hour must be in 0..23") := by
  constructor
  · intro now; rfl
  · intro now pid r rest
    have hc : ((-1 : Int) < 0 ∨ (23 : Int) < -1) := Or.inl (by norm_num)
    have h1 : replaceHour now (-1) = Except.error "hour must be in 0..23" := by
      unfold replaceHour
      rw [if_pos hc]
    simp [cleanupPrune, h1]

/-- C10: every successful upload is processed synchronously before the response:
the record's status is assigned "processing" then "completed" with nothing in
between, "pending" is never assigned, and the response body reports
"processing_started" while the stored record is already "completed". -/
theorem upload_synchronous_completion :
    ∀ s : RunStats,
      (upload_pdf (Except.ok s)).statusHistory
        = [ProcStatus.processing, ProcStatus.completed] ∧
      (upload_pdf (Except.ok s)).record = some ProcStatus.completed ∧
      (upload_pdf (Except.ok s)).responseStatus = Except.ok "processing_started" ∧
      ProcStatus.pending ∉ (upload_pdf (Except.ok s)).statusHistory := by
  intro s
  refine ⟨rfl, rfl, rfl, ?_⟩
  exact (by decide :
    ProcStatus.pending ∉ ([ProcStatus.processing, ProcStatus.completed] : List ProcStatus))
